import Mathlib

/-!
Verification of the dataset builder scripts (SVHN cropped and QA4MRE)
against their natural-language specification.

The Python sources are shallowly embedded:

* `Svhn.MatData` stands for the parsed `.mat` content (`data["X"]` rolled to a
  list of images, `data["y"]` the raw labels); `Svhn.generateExamples` embeds
  `SvhnCropped._generate_examples` (the two `assert` sanity checks, the
  `enumerate(zip(...))` loop and the `label % 10` remapping), with `Except`
  standing for a raised exception.
* `Qa4mreConfig.make` embeds `Qa4mreConfig.__init__`: the track check, the
  warn-and-substitute branch for non-main tracks, the main-language check and
  the derived `name = track + '.' + lang`.  Python's `str.lower`/`str.upper`
  are embedded as character-wise maps (`strLower`/`strUpper`).
* `Qa4mre.generateExamples` embeds `Qa4mre._generate_examples`.  The Python
  loop variables `document_id`, `document_str`, `question_str`,
  `correct_answer_id`, `correct_answer_str` live in the function scope and
  survive from one iteration to the next; they are embedded as `Option`-valued
  registers in `Qa4mre.GenState`, `none` meaning "not yet bound".  Reading an
  unbound register (Python `NameError`) aborts the generator; records yielded
  before the abort are kept, as a consumer of the Python generator would have
  received them.
* `Svhn.splitGenerators` / `Qa4mre.splitGenerators` embed the
  `_split_generators` methods, with the download manager abstracted as a
  resolving function from URL to local path.
-/

namespace Svhn

/-- Parsed content of one SVHN `.mat` archive: `X` is the list of images
(opaque payloads, the source rolls the last axis to iterate over them) and
`y` the list of raw labels. -/
structure MatData where
  X : List Nat
  y : List Int
deriving DecidableEq

/-- Embedding of `SvhnCropped._generate_examples`: assert
`np.max(data["y"]) <= 10` and `np.min(data["y"]) > 0` (on an empty `y`,
`np.max` itself raises), then yield `(i, (image, label % 10))` for the
enumerated zip of images and labels. -/
def generateExamples (data : MatData) : Except String (List (Nat × Nat × Int)) :=
  if data.y.isEmpty then
    Except.error "ValueError: zero-size array to reduction operation"
  else if data.y.any (fun l => decide (10 < l)) then
    Except.error "AssertionError: np.max(data[y]) <= 10"
  else if data.y.any (fun l => decide (l ≤ 0)) then
    Except.error "AssertionError: np.min(data[y]) > 0"
  else
    Except.ok ((data.X.zip data.y).enum.map (fun p => (p.1, p.2.1, p.2.2 % 10)))

/-- `urllib.parse.urljoin(URL, rel)` for the base URL ending in `/` and a
relative file name, as used by `SvhnCropped._split_generators`. -/
def urljoin (base rel : String) : String := base ++ rel

def URL : String := "http://ufldl.stanford.edu/housenumbers/"

/-- The resource requests passed to `dl_manager.download` by
`SvhnCropped._split_generators`. -/
def downloadRequests : List (String × String) :=
  [("train", urljoin URL "train_32x32.mat"),
   ("test", urljoin URL "test_32x32.mat"),
   ("extra", urljoin URL "extra_32x32.mat")]

/-- Embedding of `SvhnCropped._split_generators`: resolve the three requests,
then return one descriptor per split, looking the file path up by key. -/
def splitGenerators (resolve : String → String) : List (String × Option String) :=
  let outputFiles := downloadRequests.map (fun p => (p.1, resolve p.2))
  [("train", outputFiles.lookup "train"),
   ("test", outputFiles.lookup "test"),
   ("extra", outputFiles.lookup "extra")]

end Svhn

/-- Character-wise embedding of Python `str.lower` (ASCII range, as exercised
by the track names). -/
def strLower (s : String) : String := String.mk (s.data.map Char.toLower)

/-- Character-wise embedding of Python `str.upper` (ASCII range, as exercised
by the language acronyms). -/
def strUpper (s : String) : String := String.mk (s.data.map Char.toUpper)

def TRACKS : List String := ["main", "alzheimers", "entrance_exam"]

def LANGUAGES_MAIN : List String := ["AR", "BG", "EN", "ES", "RO"]

/-- The fields of a constructed `Qa4mreConfig` relevant to the claims: the
stored `track`, the stored `lang` and the derived `name`. -/
structure Qa4mreConfig where
  track : String
  lang : String
  name : String
deriving DecidableEq

/-- Embedding of `Qa4mreConfig.__init__`.  `Except.error` stands for a raised
`ValueError`; the warn-and-substitute branch (non-main track with a non-EN
language) is the `let language := ...` rebinding, which only logs a warning in
the source and is invisible to the caller. -/
def Qa4mreConfig.make (track language : String) : Except String Qa4mreConfig :=
  if strLower track ∈ TRACKS then
    let language := if strLower track ≠ "main" ∧ strUpper language ≠ "EN"
      then "EN" else language
    if strLower track = "main" ∧ strUpper language ∉ LANGUAGES_MAIN then
      Except.error "ValueError: Incorrect language for the main track."
    else
      Except.ok { track := strLower track, lang := strUpper language,
                  name := strLower track ++ "." ++ strUpper language }
  else
    Except.error "ValueError: Incorrect track."

namespace Qa4mre

/-- An `<answer>` element: attributes `a_id`, the text, and whether the
`correct` attribute is present. -/
structure Answer where
  a_id : String
  a_str : String
  correct : Bool
deriving DecidableEq

/-- A `<q>` element: attribute `q_id`, the texts of its `q_str` children (the
source loop keeps the last one), and its `answer` children. -/
structure Question where
  q_id : String
  q_strs : List String
  answers : List Answer
deriving DecidableEq

/-- A `<doc>` element: attribute `d_id` and its text. -/
structure Doc where
  d_id : String
  d_str : String
deriving DecidableEq

/-- A reading test element: attribute `r_id`, its `doc` children and its `q`
children. -/
structure Test where
  r_id : String
  docs : List Doc
  questions : List Question
deriving DecidableEq

/-- A topic element: attributes `t_id` and `t_name`, and its test children. -/
structure Topic where
  t_id : String
  t_name : String
  tests : List Test
deriving DecidableEq

/-- One record yielded by `Qa4mre._generate_examples`. -/
structure Record where
  topic_id : String
  topic_name : String
  test_id : String
  document_id : String
  document_str : String
  question_id : String
  question_str : String
  answer_options : List (String × String)
  correct_answer_id : String
  correct_answer_str : String
deriving DecidableEq

/-- The Python loop variables of `_generate_examples` that outlive a single
iteration; `none` means the name is not yet bound (reading it raises
`NameError`). -/
structure GenState where
  document_id : Option String
  document_str : Option String
  question_str : Option String
  correct_answer_id : Option String
  correct_answer_str : Option String
deriving DecidableEq

def initState : GenState := ⟨none, none, none, none, none⟩

/-- The assignments performed under `if 'correct' in answer.attrib`. -/
def updateCorrect (st : GenState) (a : Answer) : GenState :=
  { st with correct_answer_id := some a.a_id, correct_answer_str := some a.a_str }

/-- The `for answer in question.iter('answer')` loop: build
`possible_answers` in order and record the last `correct`-marked answer in the
state. -/
def processAnswers (st : GenState) : List Answer → List (String × String) × GenState
  | [] => ([], st)
  | a :: rest =>
    let st1 := if a.correct then updateCorrect st a else st
    let (opts, st2) := processAnswers st1 rest
    ((a.a_id, a.a_str) :: opts, st2)

/-- The `for q_text in question.iter('q_str')` loop: the last text wins. -/
def setQuestionStr (st : GenState) (ts : List String) : GenState :=
  ts.foldl (fun s t => { s with question_str := some t }) st

/-- The `for document in test.iter('doc')` loop: the last doc wins. -/
def setDocs (st : GenState) (ds : List Doc) : GenState :=
  ds.foldl (fun s d => { s with document_id := some d.d_id,
                                document_str := some d.d_str }) st

/-- The composite key `topic_id + '_' + topic_name + '_' + test_id + '_' +
question_id`. -/
def exampleKey (tid tname rid qid : String) : String :=
  tid ++ "_" ++ tname ++ "_" ++ rid ++ "_" ++ qid

/-- Evaluating the yielded dict: every referenced loop variable must be bound,
otherwise Python raises `NameError`. -/
def buildRecord (tid tname rid qid : String) (opts : List (String × String))
    (st : GenState) : Option Record :=
  match st.document_id, st.document_str, st.question_str,
        st.correct_answer_id, st.correct_answer_str with
  | some di, some ds, some qs, some ci, some cs =>
    some { topic_id := tid, topic_name := tname, test_id := rid,
           document_id := di, document_str := ds, question_id := qid,
           question_str := qs, answer_options := opts,
           correct_answer_id := ci, correct_answer_str := cs }
  | _, _, _, _, _ => none

/-- The `for question in test.iter('q')` loop.  The last component is `some
msg` when the generator aborted with an exception; records yielded before the
abort are kept (a consumer already received them). -/
def genQuestions (tid tname rid : String) :
    GenState → List Question → List (String × Record) × GenState × Option String
  | st, [] => ([], st, none)
  | st, q :: qs =>
    let st1 := setQuestionStr st q.q_strs
    let pr := processAnswers st1 q.answers
    match buildRecord tid tname rid q.q_id pr.1 pr.2 with
    | none => ([], pr.2, some "NameError")
    | some r =>
      let rest := genQuestions tid tname rid pr.2 qs
      ((exampleKey tid tname rid q.q_id, r) :: rest.1, rest.2)

/-- The `for test in topic` loop. -/
def genTests (tid tname : String) :
    GenState → List Test → List (String × Record) × GenState × Option String
  | st, [] => ([], st, none)
  | st, t :: ts =>
    let r := genQuestions tid tname t.r_id (setDocs st t.docs) t.questions
    match r.2.2 with
    | some e => (r.1, r.2.1, some e)
    | none =>
      let rest := genTests tid tname r.2.1 ts
      (r.1 ++ rest.1, rest.2)

/-- The `for topic in root` loop. -/
def genTopics : GenState → List Topic → List (String × Record) × GenState × Option String
  | st, [] => ([], st, none)
  | st, tp :: tps =>
    let r := genTests tp.t_id tp.t_name st tp.tests
    match r.2.2 with
    | some e => (r.1, r.2.1, some e)
    | none =>
      let rest := genTopics r.2.1 tps
      (r.1 ++ rest.1, rest.2)

/-- Embedding of `Qa4mre._generate_examples` on a parsed document tree:
the emitted `(key, record)` list, together with `some msg` when the generator
raised. -/
def generateExamples (root : List Topic) : List (String × Record) × Option String :=
  let r := genTopics initState root
  (r.1, r.2.2)

def BASE_URL : String := "http://nlp.uned.es/clef-qa/repository/js/scripts/downloadFile.php?file=/var/www/html/nlp/clef-qa/repository/resources/QA4MRE/"

def PATH_TMPL_MAIN_GS (lang : String) : String :=
  "2013/Main_Task/Training_Data/Goldstandard/QA4MRE-2013-" ++ lang ++ "_GS.xml"

def PATH_ALZHEIMER : String :=
  "2013/Biomedical_About_Alzheimer/Training_Data/Goldstandard/QA4MRE-2013_BIO_GS-RUN.xml"

def PATH_ENTRANCE_EXAM : String :=
  "2013/Entrance_Exams/Training_Data/Goldstandard/qa4mre-exam-test-withanswer.xml"

/-- `os.path.join` for the shapes exercised here (the base URL ends in `/`,
the second argument is relative). -/
def osPathJoin (a b : String) : String :=
  if a.endsWith "/" then a ++ b else a ++ "/" ++ b

/-- The `download_urls` dict built by `Qa4mre._split_generators`. -/
def downloadUrls (cfg : Qa4mreConfig) : List (String × String) :=
  (if cfg.track = "main" then
    [("main." ++ cfg.lang, osPathJoin BASE_URL (PATH_TMPL_MAIN_GS cfg.lang))]
   else []) ++
  (if cfg.track = "alzheimers" then
    [("alzheimers.EN", osPathJoin BASE_URL PATH_ALZHEIMER)]
   else []) ++
  (if cfg.track = "entrance_exam" then
    [("entrance_exam.EN", osPathJoin BASE_URL PATH_ENTRANCE_EXAM)]
   else [])

/-- Embedding of `Qa4mre._split_generators`: resolve the requested URLs, then
index the result by `'{}.{}'.format(cfg.track, cfg.lang)` (`none` is a
`KeyError`) and return the single `train` descriptor. -/
def splitGenerators (cfg : Qa4mreConfig) (resolve : String → String) :
    Option (List (String × String)) :=
  let downloadedFiles := (downloadUrls cfg).map (fun p => (p.1, resolve p.2))
  match downloadedFiles.lookup (cfg.track ++ "." ++ cfg.lang) with
  | some f => some [("train", f)]
  | none => none

/-- Specification device: the last `correct`-marked answer of a list, the
value the answer loop leaves in the `correct_answer_*` registers. -/
def lastCorrect : List Answer → Option Answer
  | [] => none
  | a :: rest => (lastCorrect rest).or (if a.correct then some a else none)

/-- Specification device: the net effect of the answer loop on the state. -/
def setCorrectSpec (st : GenState) (ans : List Answer) : GenState :=
  match lastCorrect ans with
  | none => st
  | some a => updateCorrect st a

/-- Well-formedness of the identifier attributes of a document tree: no
identifier that enters the composite key contains the separator `'_'`,
distinct topics carry distinct `(t_id, t_name)` pairs, tests within a topic
carry distinct `r_id`s, and questions within a test carry distinct `q_id`s. -/
def WellFormedIds (root : List Topic) : Prop :=
  (root.map (fun tp => (tp.t_id, tp.t_name))).Nodup ∧
  ∀ tp ∈ root, ('_' ∉ tp.t_id.data ∧ '_' ∉ tp.t_name.data) ∧
    (tp.tests.map Test.r_id).Nodup ∧
    ∀ ts ∈ tp.tests, '_' ∉ ts.r_id.data ∧ (ts.questions.map Question.q_id).Nodup

/-- All composite keys of a document tree, in document order. -/
def allKeys (root : List Topic) : List String :=
  root.flatMap (fun tp => tp.tests.flatMap (fun ts =>
    ts.questions.map (fun q => exampleKey tp.t_id tp.t_name ts.r_id q.q_id)))

/- Concrete document trees used to instantiate the theorems. -/

def sampleDoc : Doc := ⟨"d1", "Some document text."⟩

def ansA : Answer := ⟨"1", "alpha", false⟩

def ansB : Answer := ⟨"2", "beta", true⟩

def ansC : Answer := ⟨"3", "gamma", true⟩

def ansD : Answer := ⟨"4", "delta", false⟩

def q1Sample : Question := ⟨"q1", ["First question?"], [ansA, ansB]⟩

def q2Sample : Question := ⟨"q2", ["Second question?"], [ansC]⟩

def qNoCorrect : Question := ⟨"q3", ["Third question?"], [ansD]⟩

def testSample : Test := ⟨"r1", [sampleDoc], [q1Sample, q2Sample]⟩

def topicSample : Topic := ⟨"t1", "TOPIC", [testSample]⟩

def topicMissingFirst : Topic := ⟨"t1", "TOPIC", [⟨"r1", [sampleDoc], [qNoCorrect]⟩]⟩

def testMissingSecond : Test := ⟨"r1", [sampleDoc], [q1Sample, qNoCorrect]⟩

def topicMissingSecond : Topic := ⟨"t1", "TOPIC", [testMissingSecond]⟩

def dupKeyTest : Test := ⟨"r1", [sampleDoc], [⟨"q", ["A?"], [ansB]⟩, ⟨"q", ["B?"], [ansC]⟩]⟩

def dupKeyRoot : List Topic := [⟨"t1", "TOPIC", [dupKeyTest]⟩]

end Qa4mre

namespace Qa4mre

theorem setQuestionStr_eq : ∀ (ts : List String) (st : GenState),
    setQuestionStr st ts =
      match ts.getLast? with
      | none => st
      | some t => { st with question_str := some t }
  | [], st => rfl
  | [t], st => rfl
  | t :: u :: us, st => by
    have ih := setQuestionStr_eq (u :: us) { st with question_str := some t }
    have h1 : setQuestionStr st (t :: u :: us) =
        setQuestionStr { st with question_str := some t } (u :: us) := rfl
    rw [h1, ih, List.getLast?_cons_cons]
    rcases h : (u :: us).getLast? with _ | v
    · exact absurd (List.getLast?_eq_none_iff.mp h) (by simp)
    · rfl

theorem setDocs_eq : ∀ (ds : List Doc) (st : GenState),
    setDocs st ds =
      match ds.getLast? with
      | none => st
      | some d => { st with document_id := some d.d_id, document_str := some d.d_str }
  | [], st => rfl
  | [d], st => rfl
  | d :: e :: es, st => by
    have ih := setDocs_eq (e :: es)
      { st with document_id := some d.d_id, document_str := some d.d_str }
    have h1 : setDocs st (d :: e :: es) =
        setDocs { st with document_id := some d.d_id, document_str := some d.d_str }
          (e :: es) := rfl
    rw [h1, ih, List.getLast?_cons_cons]
    rcases h : (e :: es).getLast? with _ | v
    · exact absurd (List.getLast?_eq_none_iff.mp h) (by simp)
    · rfl

theorem setCorrectSpec_cons (st : GenState) (a : Answer) (rest : List Answer) :
    setCorrectSpec (if a.correct then updateCorrect st a else st) rest =
      setCorrectSpec st (a :: rest) := by
  unfold setCorrectSpec
  rcases h : lastCorrect rest with _ | b
  · show _ = match lastCorrect (a :: rest) with
      | none => st
      | some a => updateCorrect st a
    rw [show lastCorrect (a :: rest) =
        (lastCorrect rest).or (if a.correct then some a else none) from rfl, h]
    cases ha : a.correct
    · simp [ha]
    · simp [ha]
  · show _ = match lastCorrect (a :: rest) with
      | none => st
      | some a => updateCorrect st a
    rw [show lastCorrect (a :: rest) =
        (lastCorrect rest).or (if a.correct then some a else none) from rfl, h]
    cases ha : a.correct
    · simp [ha]
    · simp only [ha, if_true]
      show updateCorrect (updateCorrect st a) b = updateCorrect st b
      rfl

theorem processAnswers_eq : ∀ (ans : List Answer) (st : GenState),
    processAnswers st ans = (ans.map (fun a => (a.a_id, a.a_str)), setCorrectSpec st ans)
  | [], st => rfl
  | a :: rest, st => by
    have ih := processAnswers_eq rest (if a.correct then updateCorrect st a else st)
    show ((a.a_id, a.a_str) ::
        (processAnswers (if a.correct then updateCorrect st a else st) rest).1,
        (processAnswers (if a.correct then updateCorrect st a else st) rest).2) = _
    rw [ih, List.map_cons]
    exact congrArg _ (setCorrectSpec_cons st a rest)

theorem lastCorrect_of_filter_nil : ∀ {ans : List Answer},
    ans.filter (fun x => x.correct) = [] → lastCorrect ans = none
  | [], _ => rfl
  | a :: rest, h => by
    rw [List.filter_cons] at h
    cases ha : a.correct
    · rw [ha] at h
      simp only [if_false, Bool.false_eq_true] at h
      show (lastCorrect rest).or (if a.correct then some a else none) = none
      rw [lastCorrect_of_filter_nil h, ha]
      rfl
    · rw [ha] at h
      simp at h

theorem lastCorrect_of_filter_singleton : ∀ {ans : List Answer} {a : Answer},
    ans.filter (fun x => x.correct) = [a] → lastCorrect ans = some a
  | [], a, h => by simp at h
  | x :: rest, a, h => by
    rw [List.filter_cons] at h
    cases hx : x.correct
    · rw [hx] at h
      simp only [if_false, Bool.false_eq_true] at h
      show (lastCorrect rest).or (if x.correct then some x else none) = some a
      rw [lastCorrect_of_filter_singleton h]
      rfl
    · rw [hx] at h
      simp only [if_true] at h
      obtain ⟨rfl, hrest⟩ : x = a ∧ rest.filter (fun x => x.correct) = [] := by
        constructor
        · exact (List.cons_eq_cons.mp h).1
        · exact (List.cons_eq_cons.mp h).2
      show (lastCorrect rest).or (if x.correct then some x else none) = some x
      rw [lastCorrect_of_filter_nil hrest, hx]
      rfl

theorem setCorrectSpec_of_filter_singleton (st : GenState) {ans : List Answer}
    {a : Answer} (h : ans.filter (fun x => x.correct) = [a]) :
    setCorrectSpec st ans = updateCorrect st a := by
  unfold setCorrectSpec
  rw [lastCorrect_of_filter_singleton h]

theorem setCorrectSpec_of_filter_nil (st : GenState) {ans : List Answer}
    (h : ans.filter (fun x => x.correct) = []) :
    setCorrectSpec st ans = st := by
  unfold setCorrectSpec
  rw [lastCorrect_of_filter_nil h]

theorem buildRecord_none (tid tname rid qid : String) (opts : List (String × String))
    {st : GenState} (h : st.correct_answer_id = none) :
    buildRecord tid tname rid qid opts st = none := by
  rcases st with ⟨d1, d2, q, c1, c2⟩
  simp only at h
  subst h
  cases d1 <;> cases d2 <;> cases q <;> cases c2 <;> rfl

/-- Net effect of the generator on a tree with one topic, one test and two
questions, the first of which has a unique `correct`-marked answer: two
records are yielded; the second question's `correct_answer_*` fields are its
own last marked answer when it has one, and the first question's otherwise. -/
theorem genTwoQuestions (tp : Topic) (ts : Test) (q1 q2 : Question) (dl : Doc)
    (s1 s2 : String) (a1 : Answer)
    (ht : tp.tests = [ts]) (hq : ts.questions = [q1, q2])
    (hdl : ts.docs.getLast? = some dl)
    (hs1 : q1.q_strs.getLast? = some s1) (hs2 : q2.q_strs.getLast? = some s2)
    (hc1 : q1.answers.filter (fun x => x.correct) = [a1]) :
    generateExamples [tp] =
      ([(exampleKey tp.t_id tp.t_name ts.r_id q1.q_id,
         ⟨tp.t_id, tp.t_name, ts.r_id, dl.d_id, dl.d_str, q1.q_id, s1,
          q1.answers.map (fun a => (a.a_id, a.a_str)), a1.a_id, a1.a_str⟩),
        (exampleKey tp.t_id tp.t_name ts.r_id q2.q_id,
         ⟨tp.t_id, tp.t_name, ts.r_id, dl.d_id, dl.d_str, q2.q_id, s2,
          q2.answers.map (fun a => (a.a_id, a.a_str)),
          (match lastCorrect q2.answers with
           | some b => b.a_id
           | none => a1.a_id),
          (match lastCorrect q2.answers with
           | some b => b.a_str
           | none => a1.a_str)⟩)],
       none) := by
  have h0 : setDocs initState ts.docs =
      ⟨some dl.d_id, some dl.d_str, none, none, none⟩ := by
    rw [setDocs_eq, hdl]
    rfl
  have h1 : setQuestionStr ⟨some dl.d_id, some dl.d_str, none, none, none⟩ q1.q_strs =
      ⟨some dl.d_id, some dl.d_str, some s1, none, none⟩ := by
    rw [setQuestionStr_eq, hs1]
  have h2 : processAnswers ⟨some dl.d_id, some dl.d_str, some s1, none, none⟩ q1.answers =
      (q1.answers.map (fun a => (a.a_id, a.a_str)),
       ⟨some dl.d_id, some dl.d_str, some s1, some a1.a_id, some a1.a_str⟩) := by
    rw [processAnswers_eq, setCorrectSpec_of_filter_singleton _ hc1]
    rfl
  have h3 : setQuestionStr
      ⟨some dl.d_id, some dl.d_str, some s1, some a1.a_id, some a1.a_str⟩ q2.q_strs =
      ⟨some dl.d_id, some dl.d_str, some s2, some a1.a_id, some a1.a_str⟩ := by
    rw [setQuestionStr_eq, hs2]
  rcases hlc : lastCorrect q2.answers with _ | b
  · have h4 : processAnswers
        ⟨some dl.d_id, some dl.d_str, some s2, some a1.a_id, some a1.a_str⟩ q2.answers =
        (q2.answers.map (fun a => (a.a_id, a.a_str)),
         ⟨some dl.d_id, some dl.d_str, some s2, some a1.a_id, some a1.a_str⟩) := by
      rw [processAnswers_eq]
      unfold setCorrectSpec
      rw [hlc]
    have hgq : genQuestions tp.t_id tp.t_name ts.r_id
        ⟨some dl.d_id, some dl.d_str, none, none, none⟩ [q1, q2] =
        ([(exampleKey tp.t_id tp.t_name ts.r_id q1.q_id,
           ⟨tp.t_id, tp.t_name, ts.r_id, dl.d_id, dl.d_str, q1.q_id, s1,
            q1.answers.map (fun a => (a.a_id, a.a_str)), a1.a_id, a1.a_str⟩),
          (exampleKey tp.t_id tp.t_name ts.r_id q2.q_id,
           ⟨tp.t_id, tp.t_name, ts.r_id, dl.d_id, dl.d_str, q2.q_id, s2,
            q2.answers.map (fun a => (a.a_id, a.a_str)), a1.a_id, a1.a_str⟩)],
         ⟨some dl.d_id, some dl.d_str, some s2, some a1.a_id, some a1.a_str⟩, none) := by
      simp only [genQuestions, h1, h2, h3, h4]
      rfl
    simp only [generateExamples, genTopics, ht, genTests, hq, h0, hgq]
    rfl
  · have h4 : processAnswers
        ⟨some dl.d_id, some dl.d_str, some s2, some a1.a_id, some a1.a_str⟩ q2.answers =
        (q2.answers.map (fun a => (a.a_id, a.a_str)),
         ⟨some dl.d_id, some dl.d_str, some s2, some b.a_id, some b.a_str⟩) := by
      rw [processAnswers_eq]
      unfold setCorrectSpec
      rw [hlc]
      rfl
    have hgq : genQuestions tp.t_id tp.t_name ts.r_id
        ⟨some dl.d_id, some dl.d_str, none, none, none⟩ [q1, q2] =
        ([(exampleKey tp.t_id tp.t_name ts.r_id q1.q_id,
           ⟨tp.t_id, tp.t_name, ts.r_id, dl.d_id, dl.d_str, q1.q_id, s1,
            q1.answers.map (fun a => (a.a_id, a.a_str)), a1.a_id, a1.a_str⟩),
          (exampleKey tp.t_id tp.t_name ts.r_id q2.q_id,
           ⟨tp.t_id, tp.t_name, ts.r_id, dl.d_id, dl.d_str, q2.q_id, s2,
            q2.answers.map (fun a => (a.a_id, a.a_str)), b.a_id, b.a_str⟩)],
         ⟨some dl.d_id, some dl.d_str, some s2, some b.a_id, some b.a_str⟩, none) := by
      simp only [genQuestions, h1, h2, h3, h4]
      rfl
    simp only [generateExamples, genTopics, ht, genTests, hq, h0, hgq]
    rfl

/-- If the very first question of the document has no `correct`-marked answer,
the `correct_answer_*` registers are still unbound when the first record is
built, so the generator raises before yielding anything. -/
theorem genFirstMissing (tp : Topic) (tps : List Topic) (ts : Test) (tss : List Test)
    (q : Question) (qs : List Question)
    (ht : tp.tests = ts :: tss) (hq : ts.questions = q :: qs)
    (hc : q.answers.filter (fun x => x.correct) = []) :
    generateExamples (tp :: tps) = ([], some "NameError") := by
  have h0 : (setDocs initState ts.docs).correct_answer_id = none := by
    rw [setDocs_eq]
    rcases ts.docs.getLast? with _ | d <;> rfl
  have h1 : (setQuestionStr (setDocs initState ts.docs) q.q_strs).correct_answer_id =
      none := by
    rw [setQuestionStr_eq]
    rcases q.q_strs.getLast? with _ | t
    · exact h0
    · exact h0
  have h2 : processAnswers (setQuestionStr (setDocs initState ts.docs) q.q_strs)
      q.answers = (q.answers.map (fun a => (a.a_id, a.a_str)),
        setQuestionStr (setDocs initState ts.docs) q.q_strs) := by
    rw [processAnswers_eq, setCorrectSpec_of_filter_nil _ hc]
  have h3 : buildRecord tp.t_id tp.t_name ts.r_id q.q_id
      (q.answers.map (fun a => (a.a_id, a.a_str)))
      (setQuestionStr (setDocs initState ts.docs) q.q_strs) = none :=
    buildRecord_none _ _ _ _ _ h1
  have hgq : genQuestions tp.t_id tp.t_name ts.r_id (setDocs initState ts.docs)
      (q :: qs) = ([], setQuestionStr (setDocs initState ts.docs) q.q_strs,
        some "NameError") := by
    simp only [genQuestions, h2, h3]
  simp only [generateExamples, genTopics, ht, genTests, hq, hgq]

theorem genQuestions_keys_sublist (tid tname rid : String) :
    ∀ (qs : List Question) (st : GenState),
    List.Sublist ((genQuestions tid tname rid st qs).1.map Prod.fst)
      (qs.map (fun q => exampleKey tid tname rid q.q_id))
  | [], st => by simp [genQuestions]
  | q :: qs, st => by
    simp only [genQuestions, List.map_cons]
    rcases hb : buildRecord tid tname rid q.q_id
        (processAnswers (setQuestionStr st q.q_strs) q.answers).1
        (processAnswers (setQuestionStr st q.q_strs) q.answers).2 with _ | r
    · simp only [hb, List.map_nil]
      exact List.nil_sublist _
    · simp only [hb, List.map_cons]
      exact List.Sublist.cons₂ _ (genQuestions_keys_sublist tid tname rid qs _)

theorem genTests_keys_sublist (tid tname : String) :
    ∀ (ts : List Test) (st : GenState),
    List.Sublist ((genTests tid tname st ts).1.map Prod.fst)
      (ts.flatMap (fun t => t.questions.map (fun q => exampleKey tid tname t.r_id q.q_id)))
  | [], st => by simp [genTests]
  | t :: ts, st => by
    simp only [genTests, List.flatMap_cons]
    rcases he : (genQuestions tid tname t.r_id (setDocs st t.docs) t.questions).2.2
      with _ | e
    · simp only [he, List.map_append]
      exact List.Sublist.append (genQuestions_keys_sublist tid tname t.r_id t.questions _)
        (genTests_keys_sublist tid tname ts _)
    · simp only [he]
      exact (genQuestions_keys_sublist tid tname t.r_id t.questions _).trans
        (List.sublist_append_left _ _)

theorem genTopics_keys_sublist :
    ∀ (root : List Topic) (st : GenState),
    List.Sublist ((genTopics st root).1.map Prod.fst) (allKeys root)
  | [], st => by simp [genTopics, allKeys]
  | tp :: tps, st => by
    simp only [genTopics, allKeys, List.flatMap_cons]
    rcases he : (genTests tp.t_id tp.t_name st tp.tests).2.2 with _ | e
    · simp only [he, List.map_append]
      exact List.Sublist.append (genTests_keys_sublist tp.t_id tp.t_name tp.tests _)
        (genTopics_keys_sublist tps _)
    · simp only [he]
      exact (genTests_keys_sublist tp.t_id tp.t_name tp.tests _).trans
        (List.sublist_append_left _ _)

theorem generateExamples_keys_sublist (root : List Topic) :
    List.Sublist ((generateExamples root).1.map Prod.fst) (allKeys root) :=
  genTopics_keys_sublist root initState

/-- Injectivity of a single `'_'`-separated join when the left components
contain no separator. -/
theorem sepList_inj : ∀ (l1 m1 l2 m2 : List Char),
    '_' ∉ l1 → '_' ∉ m1 →
    l1 ++ '_' :: l2 = m1 ++ '_' :: m2 → l1 = m1 ∧ l2 = m2
  | [], [], _, _, _, _, h => ⟨rfl, by simpa using h⟩
  | [], c :: m1, _, _, _, h2, h => by
    obtain ⟨hc, -⟩ := List.cons_eq_cons.mp h
    exfalso
    apply h2
    rw [← hc]
    exact List.mem_cons_self _ _
  | c :: l1, [], _, _, h1, _, h => by
    obtain ⟨hc, -⟩ := List.cons_eq_cons.mp h
    exfalso
    apply h1
    rw [hc]
    exact List.mem_cons_self _ _
  | c :: l1, c' :: m1, l2, m2, h1, h2, h => by
    obtain ⟨hc, ht⟩ := List.cons_eq_cons.mp h
    have h1' : '_' ∉ l1 := fun hm => h1 (List.mem_cons_of_mem _ hm)
    have h2' : '_' ∉ m1 := fun hm => h2 (List.mem_cons_of_mem _ hm)
    obtain ⟨e1, e2⟩ := sepList_inj l1 m1 l2 m2 h1' h2' ht
    exact ⟨by rw [hc, e1], e2⟩

/-- The composite key determines all four identifiers, provided the first
three contain no `'_'`. -/
theorem exampleKey_inj {a b c d a' b' c' d' : String}
    (ha : '_' ∉ a.data) (ha' : '_' ∉ a'.data)
    (hb : '_' ∉ b.data) (hb' : '_' ∉ b'.data)
    (hc : '_' ∉ c.data) (hc' : '_' ∉ c'.data)
    (h : exampleKey a b c d = exampleKey a' b' c' d') :
    a = a' ∧ b = b' ∧ c = c' ∧ d = d' := by
  have hu : ("_" : String).data = ['_'] := rfl
  have hd : a.data ++ '_' :: (b.data ++ '_' :: (c.data ++ '_' :: d.data)) =
      a'.data ++ '_' :: (b'.data ++ '_' :: (c'.data ++ '_' :: d'.data)) := by
    have h2 := congrArg String.data h
    simpa only [exampleKey, String.data_append, hu, List.append_assoc,
      List.singleton_append, List.cons_append] using h2
  obtain ⟨e1, h3⟩ := sepList_inj _ _ _ _ ha ha' hd
  obtain ⟨e2, h4⟩ := sepList_inj _ _ _ _ hb hb' h3
  obtain ⟨e3, h5⟩ := sepList_inj _ _ _ _ hc hc' h4
  exact ⟨String.ext e1, String.ext e2, String.ext e3, String.ext h5⟩

theorem allKeys_nodup {root : List Topic} (h : WellFormedIds root) :
    (allKeys root).Nodup := by
  obtain ⟨hTop, hAll⟩ := h
  rw [allKeys, List.nodup_flatMap]
  constructor
  · intro tp htp
    obtain ⟨⟨hti, htn⟩, hrids, hts⟩ := hAll tp htp
    rw [List.nodup_flatMap]
    constructor
    · intro ts hts'
      obtain ⟨hrid, hqids⟩ := hts ts hts'
      exact List.Nodup.map_on
        (fun x hx y hy hxy => List.inj_on_of_nodup_map hqids hx hy
          (exampleKey_inj hti hti htn htn hrid hrid hxy).2.2.2)
        (List.Nodup.of_map _ hqids)
    · have hp : tp.tests.Pairwise (fun x y => x.r_id ≠ y.r_id) :=
        List.pairwise_map.mp hrids
      refine List.Pairwise.imp_of_mem ?_ hp
      intro ts1 ts2 hm1 hm2 hne
      intro k hk1 hk2
      obtain ⟨q1, hq1, rfl⟩ := List.mem_map.mp hk1
      obtain ⟨q2, hq2, hkk⟩ := List.mem_map.mp hk2
      obtain ⟨hr1, -⟩ := hts ts1 hm1
      obtain ⟨hr2, -⟩ := hts ts2 hm2
      exact hne (exampleKey_inj hti hti htn htn hr1 hr2 hkk.symm).2.2.1
  · have hp : root.Pairwise (fun x y => (x.t_id, x.t_name) ≠ (y.t_id, y.t_name)) :=
      List.pairwise_map.mp hTop
    refine List.Pairwise.imp_of_mem ?_ hp
    intro tp1 tp2 hm1 hm2 hne
    intro k hk1 hk2
    obtain ⟨ts1, hts1, hk1'⟩ := List.mem_flatMap.mp hk1
    obtain ⟨q1, hq1, rfl⟩ := List.mem_map.mp hk1'
    obtain ⟨ts2, hts2, hk2'⟩ := List.mem_flatMap.mp hk2
    obtain ⟨q2, hq2, hkk⟩ := List.mem_map.mp hk2'
    obtain ⟨⟨ht1, hn1⟩, -, htsts1⟩ := hAll tp1 hm1
    obtain ⟨⟨ht2, hn2⟩, -, htsts2⟩ := hAll tp2 hm2
    obtain ⟨hr1, -⟩ := htsts1 ts1 hts1
    obtain ⟨hr2, -⟩ := htsts2 ts2 hts2
    have hkey := exampleKey_inj ht1 ht2 hn1 hn2 hr1 hr2 hkk.symm
    exact hne (by rw [hkey.1, hkey.2.1])

end Qa4mre

/-- Claim C1: the claim asserts that constructing a configuration with
track='alzheimers' and language='FR' fails with an invalid-configuration
error.  The code instead logs a warning, silently substitutes language='EN'
and returns a constructed configuration named `alzheimers.EN`.  This theorem
evaluates the embedded constructor at that failing input. -/
theorem qa4mreConfig_alzheimers_fr_constructs :
    Qa4mreConfig.make "alzheimers" "FR" =
      Except.ok { track := "alzheimers", lang := "EN", name := "alzheimers.EN" } := by
  rfl

/-- Claim C2: on a source of exactly 4 labeled entries with raw labels
10, 1, 2, 10 (in that order), the SVHN generator emits exactly 4 pairs with
keys 0, 1, 2, 3 and labels 0, 1, 2, 0 in order. -/
theorem svhn_concrete_four_labels (x0 x1 x2 x3 : Nat) :
    Svhn.generateExamples ⟨[x0, x1, x2, x3], [10, 1, 2, 10]⟩ =
      Except.ok [(0, x0, 0), (1, x1, 1), (2, x2, 2), (3, x3, 0)] := by
  rfl

/-- What a successful construction guarantees about the stored fields: the
track is the lowered input and lies in `TRACKS`, the language is the uppered
input for the main track and `"EN"` otherwise (and lies in `LANGUAGES_MAIN`),
and the derived name is the `'.'`-join of the stored fields. -/
theorem makeOkShape {t l : String} {c : Qa4mreConfig}
    (h : Qa4mreConfig.make t l = Except.ok c) :
    c.track ∈ TRACKS ∧ c.lang ∈ LANGUAGES_MAIN ∧
    c.name = c.track ++ "." ++ c.lang ∧ c.track = strLower t ∧
    c.lang = (if strLower t = "main" then strUpper l else "EN") := by
  simp only [Qa4mreConfig.make] at h
  by_cases h1 : strLower t ∈ TRACKS
  · rw [if_pos h1] at h
    by_cases hB : strLower t ≠ "main" ∧ strUpper l ≠ "EN"
    · rw [if_pos hB] at h
      have hC : ¬(strLower t = "main" ∧ strUpper "EN" ∉ LANGUAGES_MAIN) := by
        intro hh
        exact hh.2 (by decide)
      rw [if_neg hC, Except.ok.injEq] at h
      subst h
      refine ⟨h1, ?_, rfl, rfl, ?_⟩
      · exact (by decide : strUpper "EN" ∈ LANGUAGES_MAIN)
      · rw [if_neg hB.1]
        rfl
    · rw [if_neg hB] at h
      push_neg at hB
      by_cases h2 : strLower t = "main"
      · by_cases h3 : strUpper l ∈ LANGUAGES_MAIN
        · have hC : ¬(strLower t = "main" ∧ strUpper l ∉ LANGUAGES_MAIN) :=
            fun hh => hh.2 h3
          rw [if_neg hC, Except.ok.injEq] at h
          subst h
          exact ⟨h1, h3, rfl, rfl, by rw [if_pos h2]⟩
        · rw [if_pos ⟨h2, h3⟩] at h
          exact absurd h (by simp)
      · have hEN : strUpper l = "EN" := hB h2
        have hC : ¬(strLower t = "main" ∧ strUpper l ∉ LANGUAGES_MAIN) :=
          fun hh => h2 hh.1
        rw [if_neg hC, Except.ok.injEq] at h
        subst h
        refine ⟨h1, ?_, rfl, rfl, ?_⟩
        · rw [hEN]
          exact (by decide : ("EN" : String) ∈ LANGUAGES_MAIN)
        · rw [if_neg h2, hEN]
  · rw [if_neg h1] at h
    exact absurd h (by simp)

/-- Claim C4: every label emitted by the SVHN generator lies in `[0, 10)`,
and any raw label outside `[1, 10]` makes the generator fail (before any
record is emitted: the embedded result is then an error carrying no records). -/
theorem svhn_label_bounds (data : Svhn.MatData) :
    (∀ res, Svhn.generateExamples data = Except.ok res →
      ∀ e ∈ res, 0 ≤ e.2.2 ∧ e.2.2 < 10) ∧
    ((∃ l ∈ data.y, l < 1 ∨ 10 < l) →
      ∃ msg, Svhn.generateExamples data = Except.error msg) := by
  constructor
  · intro res h e he
    simp only [Svhn.generateExamples] at h
    split_ifs at h with hA hB hC
    rw [Except.ok.injEq] at h
    subst h
    obtain ⟨p, hp, rfl⟩ := List.mem_map.mp he
    exact ⟨Int.emod_nonneg _ (by norm_num), Int.emod_lt_of_pos _ (by norm_num)⟩
  · rintro ⟨l, hl, hlt⟩
    have hne : data.y.isEmpty = false := by
      rcases hy : data.y with _ | ⟨a, as⟩
      · rw [hy] at hl
        simp at hl
      · rfl
    cases hA : data.y.any (fun x => decide (10 < x))
    · have h10 : ¬(10 < l) := by
        have := List.any_eq_false.mp hA l hl
        simpa using this
      have hle : l ≤ 0 := by
        rcases hlt with h | h
        · omega
        · exact absurd h h10
      have hB : data.y.any (fun x => decide (x ≤ 0)) = true :=
        List.any_eq_true.mpr ⟨l, hl, by simpa using hle⟩
      exact ⟨"AssertionError: np.min(data[y]) > 0",
        by simp [Svhn.generateExamples, hne, hA, hB]⟩
    · exact ⟨"AssertionError: np.max(data[y]) <= 10",
        by simp [Svhn.generateExamples, hne, hA]⟩

/-- Witness for C4 at concrete inputs: labels `[7]` are emitted in range, and
the source `[11]` fails with the max assertion. -/
theorem svhn_label_bounds_witness :
    (0 ≤ (7 : Int) % 10 ∧ (7 : Int) % 10 < 10) ∧
    (∃ msg, Svhn.generateExamples ⟨[5], [11]⟩ = Except.error msg) := by
  constructor
  · exact (svhn_label_bounds ⟨[5], [7]⟩).1 [(0, 5, (7 : Int) % 10)] rfl
      (0, 5, (7 : Int) % 10) (by simp)
  · exact (svhn_label_bounds ⟨[5], [11]⟩).2 ⟨11, by simp, by norm_num⟩

/-- Claim C6: both embedded generators are pure functions of their resolved
input, so two independent invocations on the same input produce identical
(key, record) sequences; there is no hidden cross-invocation state. -/
theorem generators_deterministic (d1 d2 : Svhn.MatData) (r1 r2 : List Qa4mre.Topic)
    (hd : d1 = d2) (hr : r1 = r2) :
    Svhn.generateExamples d1 = Svhn.generateExamples d2 ∧
    Qa4mre.generateExamples r1 = Qa4mre.generateExamples r2 :=
  ⟨congrArg _ hd, congrArg _ hr⟩

/-- Witness for C6 at a concrete input. -/
theorem generators_deterministic_witness :
    Svhn.generateExamples ⟨[1], [5]⟩ = Svhn.generateExamples ⟨[1], [5]⟩ ∧
    Qa4mre.generateExamples [Qa4mre.topicSample] =
      Qa4mre.generateExamples [Qa4mre.topicSample] :=
  generators_deterministic ⟨[1], [5]⟩ ⟨[1], [5]⟩ [Qa4mre.topicSample]
    [Qa4mre.topicSample] rfl rfl

/-- Claim C7: the derived name of a constructed configuration is the
`'.'`-join of its stored track and language, and the derivation is injective
over constructed configurations: equal names force equal stored options. -/
theorem config_name_join_injective (t1 l1 t2 l2 : String) (c1 c2 : Qa4mreConfig)
    (h1 : Qa4mreConfig.make t1 l1 = Except.ok c1)
    (h2 : Qa4mreConfig.make t2 l2 = Except.ok c2) :
    c1.name = c1.track ++ "." ++ c1.lang ∧
    (c1.name = c2.name → c1.track = c2.track ∧ c1.lang = c2.lang) := by
  obtain ⟨m1, g1, n1, -, -⟩ := makeOkShape h1
  obtain ⟨m2, g2, n2, -, -⟩ := makeOkShape h2
  refine ⟨n1, fun hname => ?_⟩
  have key : ∀ a ∈ TRACKS, ∀ b ∈ LANGUAGES_MAIN, ∀ a2 ∈ TRACKS, ∀ b2 ∈ LANGUAGES_MAIN,
      a ++ "." ++ b = a2 ++ "." ++ b2 → a = a2 ∧ b = b2 := by decide
  exact key _ m1 _ g1 _ m2 _ g2 (by rw [← n1, ← n2, hname])

/-- Witness for C7 at two concrete constructions sharing the name `main.EN`. -/
theorem config_name_join_injective_witness :
    (⟨"main", "EN", "main.EN"⟩ : Qa4mreConfig).name =
      (⟨"main", "EN", "main.EN"⟩ : Qa4mreConfig).track ++ "." ++
        (⟨"main", "EN", "main.EN"⟩ : Qa4mreConfig).lang ∧
    ((⟨"main", "EN", "main.EN"⟩ : Qa4mreConfig).name =
        (⟨"main", "EN", "main.EN"⟩ : Qa4mreConfig).name →
      (⟨"main", "EN", "main.EN"⟩ : Qa4mreConfig).track =
          (⟨"main", "EN", "main.EN"⟩ : Qa4mreConfig).track ∧
        (⟨"main", "EN", "main.EN"⟩ : Qa4mreConfig).lang =
          (⟨"main", "EN", "main.EN"⟩ : Qa4mreConfig).lang) :=
  config_name_join_injective "main" "EN" "Main" "en"
    ⟨"main", "EN", "main.EN"⟩ ⟨"main", "EN", "main.EN"⟩ rfl rfl

/-- Claim C8: split production is a pure function of the configuration —
SVHN requests exactly the keys `train`, `test`, `extra` and returns three
descriptors whose names (including the custom name `extra`) are preserved
verbatim with successfully resolved paths; QA4MRE requests exactly the single
key `track ++ "." ++ lang` and returns one `train` descriptor. -/
theorem split_production_pure (t l : String) (cfg : Qa4mreConfig)
    (resolve : String → String) (h : Qa4mreConfig.make t l = Except.ok cfg) :
    (Svhn.downloadRequests.map Prod.fst = ["train", "test", "extra"] ∧
     Svhn.splitGenerators resolve =
       [("train", some (resolve (Svhn.urljoin Svhn.URL "train_32x32.mat"))),
        ("test", some (resolve (Svhn.urljoin Svhn.URL "test_32x32.mat"))),
        ("extra", some (resolve (Svhn.urljoin Svhn.URL "extra_32x32.mat")))]) ∧
    ((Qa4mre.downloadUrls cfg).map Prod.fst = [cfg.track ++ "." ++ cfg.lang] ∧
     ∃ f, Qa4mre.splitGenerators cfg resolve = some [("train", f)]) := by
  obtain ⟨hm, hg, -, htr, hlang⟩ := makeOkShape h
  refine ⟨⟨rfl, rfl⟩, ?_⟩
  have htrack : cfg.track = "main" ∨ cfg.track = "alzheimers" ∨
      cfg.track = "entrance_exam" := by
    simpa [TRACKS] using hm
  rcases htrack with h1 | h1 | h1
  · have hkey : cfg.track ++ "." ++ cfg.lang = "main." ++ cfg.lang := by
      rw [h1]
      rfl
    constructor
    · simp [Qa4mre.downloadUrls, h1, hkey]
    · refine ⟨resolve (Qa4mre.osPathJoin Qa4mre.BASE_URL
        (Qa4mre.PATH_TMPL_MAIN_GS cfg.lang)), ?_⟩
      simp [Qa4mre.splitGenerators, Qa4mre.downloadUrls, h1, hkey, List.lookup]
  · have hEN : cfg.lang = "EN" := by
      rw [htr] at h1
      rw [hlang, if_neg (by rw [h1]; decide)]
    have hkey : cfg.track ++ "." ++ cfg.lang = "alzheimers.EN" := by
      rw [h1, hEN]
      rfl
    constructor
    · simp [Qa4mre.downloadUrls, h1, hkey, hEN]
    · refine ⟨resolve (Qa4mre.osPathJoin Qa4mre.BASE_URL Qa4mre.PATH_ALZHEIMER), ?_⟩
      simp [Qa4mre.splitGenerators, Qa4mre.downloadUrls, h1, hEN, List.lookup]
  · have hEN : cfg.lang = "EN" := by
      rw [htr] at h1
      rw [hlang, if_neg (by rw [h1]; decide)]
    have hkey : cfg.track ++ "." ++ cfg.lang = "entrance_exam.EN" := by
      rw [h1, hEN]
      rfl
    constructor
    · simp [Qa4mre.downloadUrls, h1, hkey, hEN]
    · refine ⟨resolve (Qa4mre.osPathJoin Qa4mre.BASE_URL Qa4mre.PATH_ENTRANCE_EXAM), ?_⟩
      simp [Qa4mre.splitGenerators, Qa4mre.downloadUrls, h1, hEN, List.lookup]

/-- Witness for C8 at the configuration `main.EN` and the identity resolver. -/
theorem split_production_pure_witness :
    (Svhn.downloadRequests.map Prod.fst = ["train", "test", "extra"] ∧
     Svhn.splitGenerators id =
       [("train", some (id (Svhn.urljoin Svhn.URL "train_32x32.mat"))),
        ("test", some (id (Svhn.urljoin Svhn.URL "test_32x32.mat"))),
        ("extra", some (id (Svhn.urljoin Svhn.URL "extra_32x32.mat")))]) ∧
    ((Qa4mre.downloadUrls ⟨"main", "EN", "main.EN"⟩).map Prod.fst = ["main.EN"] ∧
     ∃ f, Qa4mre.splitGenerators ⟨"main", "EN", "main.EN"⟩ id = some [("train", f)]) :=
  split_production_pure "main" "EN" ⟨"main", "EN", "main.EN"⟩ id rfl

/-- Claim C10 counterexample: the input pair (track='alzheimers',
language='fr') is accepted, but the stored language is `"EN"`, not the
uppercased input `"FR"` — refuting the claim that every accepted pair stores
the uppercased input language. -/
theorem config_lang_not_uppercased_input :
    Qa4mreConfig.make "alzheimers" "fr" =
      Except.ok ⟨"alzheimers", "EN", "alzheimers.EN"⟩ ∧
    strUpper "fr" = "FR" ∧
    (⟨"alzheimers", "EN", "alzheimers.EN"⟩ : Qa4mreConfig).lang ≠ strUpper "fr" := by
  exact ⟨rfl, rfl, by decide⟩

/-- Claim C10 (amended): construction accepts case-insensitively and stores
the lowercased track; the stored language is the uppercased input language
for the main track but `"EN"` for the other tracks regardless of the input;
the name joins the stored fields with `'.'`; construction fails when the
lowercased track is unknown, and when the track is main and the uppercased
language is not a main-track language. -/
theorem config_normalization_amended (t l : String) :
    (strLower t ∉ TRACKS → ∃ e, Qa4mreConfig.make t l = Except.error e) ∧
    (strLower t = "main" → strUpper l ∉ LANGUAGES_MAIN →
      ∃ e, Qa4mreConfig.make t l = Except.error e) ∧
    (∀ c, Qa4mreConfig.make t l = Except.ok c →
      c.track = strLower t ∧
      c.lang = (if strLower t = "main" then strUpper l else "EN") ∧
      c.name = strLower t ++ "." ++ c.lang) := by
  refine ⟨?_, ?_, ?_⟩
  · intro hn
    exact ⟨"ValueError: Incorrect track.", by simp [Qa4mreConfig.make, hn]⟩
  · intro hmain hlang
    refine ⟨"ValueError: Incorrect language for the main track.", ?_⟩
    simp only [Qa4mreConfig.make]
    rw [if_pos (by rw [hmain]; decide)]
    have hB : ¬(strLower t ≠ "main" ∧ strUpper l ≠ "EN") := fun hh => hh.1 hmain
    rw [if_neg hB, if_pos ⟨hmain, hlang⟩]
  · intro c hc
    obtain ⟨-, -, hname, htr, hlg⟩ := makeOkShape hc
    refine ⟨htr, hlg, ?_⟩
    rw [hname, htr]

/-- Witness for C10 (amended) at three concrete inputs: an unknown track
fails, main with an unknown language fails, and ('Alzheimers', 'fr') is
stored as track `alzheimers`, language `EN`, name `alzheimers.EN`. -/
theorem config_normalization_amended_witness :
    (∃ e, Qa4mreConfig.make "bogus" "EN" = Except.error e) ∧
    (∃ e, Qa4mreConfig.make "Main" "XX" = Except.error e) ∧
    ((⟨"alzheimers", "EN", "alzheimers.EN"⟩ : Qa4mreConfig).track =
        strLower "Alzheimers" ∧
     (⟨"alzheimers", "EN", "alzheimers.EN"⟩ : Qa4mreConfig).lang =
       (if strLower "Alzheimers" = "main" then strUpper "fr" else "EN") ∧
     (⟨"alzheimers", "EN", "alzheimers.EN"⟩ : Qa4mreConfig).name =
       strLower "Alzheimers" ++ "." ++
         (⟨"alzheimers", "EN", "alzheimers.EN"⟩ : Qa4mreConfig).lang) :=
  ⟨(config_normalization_amended "bogus" "EN").1 (by decide),
   (config_normalization_amended "Main" "XX").2.1 (by decide) (by decide),
   (config_normalization_amended "Alzheimers" "fr").2.2 _ rfl⟩

/-- Claim C3: on a document with one topic containing one test containing two
questions with distinct ids, each with exactly one `correct`-marked answer
(and, as any real document of this format has, at least one doc element and a
question text per question), the generator yields exactly two records sharing
the topic and test identifiers, with distinct question ids, and each record's
`correct_answer_id` is the id of the marked answer inside that record's own
`answer_options`. -/
theorem qa4mre_two_question_records (tp : Qa4mre.Topic) (ts : Qa4mre.Test)
    (q1 q2 : Qa4mre.Question) (a1 a2 : Qa4mre.Answer)
    (ht : tp.tests = [ts]) (hq : ts.questions = [q1, q2])
    (hd : ts.docs ≠ []) (hs1 : q1.q_strs ≠ []) (hs2 : q2.q_strs ≠ [])
    (hc1 : q1.answers.filter (fun x => x.correct) = [a1])
    (hc2 : q2.answers.filter (fun x => x.correct) = [a2])
    (hqq : q1.q_id ≠ q2.q_id) :
    ∃ r1 r2, Qa4mre.generateExamples [tp] =
      ([(Qa4mre.exampleKey tp.t_id tp.t_name ts.r_id q1.q_id, r1),
        (Qa4mre.exampleKey tp.t_id tp.t_name ts.r_id q2.q_id, r2)], none) ∧
      r1.topic_id = tp.t_id ∧ r2.topic_id = tp.t_id ∧
      r1.topic_name = tp.t_name ∧ r2.topic_name = tp.t_name ∧
      r1.test_id = ts.r_id ∧ r2.test_id = ts.r_id ∧
      r1.question_id = q1.q_id ∧ r2.question_id = q2.q_id ∧
      r1.question_id ≠ r2.question_id ∧
      r1.correct_answer_id = a1.a_id ∧
      (a1.a_id, a1.a_str) ∈ r1.answer_options ∧
      r2.correct_answer_id = a2.a_id ∧
      (a2.a_id, a2.a_str) ∈ r2.answer_options := by
  obtain ⟨dl, hdl⟩ : ∃ d, ts.docs.getLast? = some d := by
    rcases hh : ts.docs.getLast? with _ | d
    · exact absurd (List.getLast?_eq_none_iff.mp hh) hd
    · exact ⟨d, rfl⟩
  obtain ⟨s1, hts1⟩ : ∃ s, q1.q_strs.getLast? = some s := by
    rcases hh : q1.q_strs.getLast? with _ | s
    · exact absurd (List.getLast?_eq_none_iff.mp hh) hs1
    · exact ⟨s, rfl⟩
  obtain ⟨s2, hts2⟩ : ∃ s, q2.q_strs.getLast? = some s := by
    rcases hh : q2.q_strs.getLast? with _ | s
    · exact absurd (List.getLast?_eq_none_iff.mp hh) hs2
    · exact ⟨s, rfl⟩
  have hmain := Qa4mre.genTwoQuestions tp ts q1 q2 dl s1 s2 a1 ht hq hdl hts1 hts2 hc1
  rw [Qa4mre.lastCorrect_of_filter_singleton hc2] at hmain
  have ha1 : a1 ∈ q1.answers := by
    apply List.mem_of_mem_filter (p := fun x => x.correct)
    rw [hc1]
    exact List.mem_singleton_self a1
  have ha2 : a2 ∈ q2.answers := by
    apply List.mem_of_mem_filter (p := fun x => x.correct)
    rw [hc2]
    exact List.mem_singleton_self a2
  exact ⟨_, _, hmain, rfl, rfl, rfl, rfl, rfl, rfl, rfl, rfl, hqq, rfl,
    List.mem_map_of_mem _ ha1, rfl, List.mem_map_of_mem _ ha2⟩

/-- Witness for C3 on a concrete two-question document. -/
theorem qa4mre_two_question_records_witness :
    ∃ r1 r2, Qa4mre.generateExamples [Qa4mre.topicSample] =
      ([("t1_TOPIC_r1_q1", r1), ("t1_TOPIC_r1_q2", r2)], none) ∧
      r1.topic_id = "t1" ∧ r2.topic_id = "t1" ∧
      r1.topic_name = "TOPIC" ∧ r2.topic_name = "TOPIC" ∧
      r1.test_id = "r1" ∧ r2.test_id = "r1" ∧
      r1.question_id = "q1" ∧ r2.question_id = "q2" ∧
      r1.question_id ≠ r2.question_id ∧
      r1.correct_answer_id = "2" ∧ ("2", "beta") ∈ r1.answer_options ∧
      r2.correct_answer_id = "3" ∧ ("3", "gamma") ∈ r2.answer_options :=
  qa4mre_two_question_records Qa4mre.topicSample Qa4mre.testSample
    Qa4mre.q1Sample Qa4mre.q2Sample Qa4mre.ansB Qa4mre.ansC
    rfl rfl (by decide) (by decide) (by decide) (by decide) (by decide) (by decide)

/-- Claim C9: a question without a `correct`-marked answer triggers no
validation error.  If it is the first question processed in the file, the
generator fails with an unbound-variable (`NameError`) abort before emitting
anything; otherwise the emitted record's `correct_answer_*` fields carry the
values of the most recently processed marked answer of an earlier question. -/
theorem qa4mre_missing_correct_behavior :
    (∀ (tp : Qa4mre.Topic) (tps : List Qa4mre.Topic) (ts : Qa4mre.Test)
       (tss : List Qa4mre.Test) (q : Qa4mre.Question) (qs : List Qa4mre.Question),
      tp.tests = ts :: tss → ts.questions = q :: qs →
      q.answers.filter (fun x => x.correct) = [] →
      Qa4mre.generateExamples (tp :: tps) = ([], some "NameError")) ∧
    (∀ (tp : Qa4mre.Topic) (ts : Qa4mre.Test) (q1 q2 : Qa4mre.Question)
       (a1 : Qa4mre.Answer),
      tp.tests = [ts] → ts.questions = [q1, q2] → ts.docs ≠ [] →
      q1.q_strs ≠ [] → q2.q_strs ≠ [] →
      q1.answers.filter (fun x => x.correct) = [a1] →
      q2.answers.filter (fun x => x.correct) = [] →
      ∃ r1 r2, Qa4mre.generateExamples [tp] =
        ([(Qa4mre.exampleKey tp.t_id tp.t_name ts.r_id q1.q_id, r1),
          (Qa4mre.exampleKey tp.t_id tp.t_name ts.r_id q2.q_id, r2)], none) ∧
        r2.correct_answer_id = a1.a_id ∧ r2.correct_answer_str = a1.a_str) := by
  constructor
  · exact Qa4mre.genFirstMissing
  · intro tp ts q1 q2 a1 ht hq hd hs1 hs2 hc1 hc2
    obtain ⟨dl, hdl⟩ : ∃ d, ts.docs.getLast? = some d := by
      rcases hh : ts.docs.getLast? with _ | d
      · exact absurd (List.getLast?_eq_none_iff.mp hh) hd
      · exact ⟨d, rfl⟩
    obtain ⟨s1, hts1⟩ : ∃ s, q1.q_strs.getLast? = some s := by
      rcases hh : q1.q_strs.getLast? with _ | s
      · exact absurd (List.getLast?_eq_none_iff.mp hh) hs1
      · exact ⟨s, rfl⟩
    obtain ⟨s2, hts2⟩ : ∃ s, q2.q_strs.getLast? = some s := by
      rcases hh : q2.q_strs.getLast? with _ | s
      · exact absurd (List.getLast?_eq_none_iff.mp hh) hs2
      · exact ⟨s, rfl⟩
    have hmain := Qa4mre.genTwoQuestions tp ts q1 q2 dl s1 s2 a1 ht hq hdl hts1 hts2 hc1
    rw [Qa4mre.lastCorrect_of_filter_nil hc2] at hmain
    exact ⟨_, _, hmain, rfl, rfl⟩

/-- Witness for C9: a lone question without a marked answer aborts the
generator, and a second question without one inherits the first question's
marked answer (id "2", text "beta"), which is not among its own options. -/
theorem qa4mre_missing_correct_behavior_witness :
    Qa4mre.generateExamples [Qa4mre.topicMissingFirst] = ([], some "NameError") ∧
    (∃ r1 r2, Qa4mre.generateExamples [Qa4mre.topicMissingSecond] =
      ([("t1_TOPIC_r1_q1", r1), ("t1_TOPIC_r1_q3", r2)], none) ∧
      r2.correct_answer_id = "2" ∧ r2.correct_answer_str = "beta") :=
  ⟨qa4mre_missing_correct_behavior.1 Qa4mre.topicMissingFirst []
      ⟨"r1", [Qa4mre.sampleDoc], [Qa4mre.qNoCorrect]⟩ [] Qa4mre.qNoCorrect []
      rfl rfl (by decide),
   qa4mre_missing_correct_behavior.2 Qa4mre.topicMissingSecond
      Qa4mre.testMissingSecond Qa4mre.q1Sample Qa4mre.qNoCorrect Qa4mre.ansB
      rfl rfl (by decide) (by decide) (by decide) (by decide) (by decide)⟩

/-- Claim C5 counterexample: a document whose test holds two distinct
questions sharing the `q_id` "q" makes the generator emit two distinct
records with the identical composite key `t1_TOPIC_r1_q`, refuting
unconditional key uniqueness for the QA4MRE generator. -/
theorem qa4mre_duplicate_key :
    (Qa4mre.generateExamples Qa4mre.dupKeyRoot).1.map Prod.fst =
      ["t1_TOPIC_r1_q", "t1_TOPIC_r1_q"] ∧
    ¬ ((Qa4mre.generateExamples Qa4mre.dupKeyRoot).1.map Prod.fst).Nodup ∧
    ((Qa4mre.generateExamples Qa4mre.dupKeyRoot).1)[0]? ≠
      ((Qa4mre.generateExamples Qa4mre.dupKeyRoot).1)[1]? :=
  ⟨by decide, by decide, by decide⟩

/-- Claim C5 (amended): SVHN's integer index keys are always pairwise
distinct; QA4MRE's composite keys are pairwise distinct whenever the
identifier attributes are well formed, i.e. `t_id`, `t_name` and `r_id`
contain no `'_'` separator, distinct topics carry distinct `(t_id, t_name)`
pairs, tests within a topic distinct `r_id`s and questions within a test
distinct `q_id`s. -/
theorem example_keys_unique (data : Svhn.MatData) (res : List (Nat × Nat × Int))
    (root : List Qa4mre.Topic)
    (hok : Svhn.generateExamples data = Except.ok res)
    (hwf : Qa4mre.WellFormedIds root) :
    (res.map Prod.fst).Nodup ∧
    ((Qa4mre.generateExamples root).1.map Prod.fst).Nodup := by
  constructor
  · simp only [Svhn.generateExamples] at hok
    split_ifs at hok with h1 h2 h3
    rw [Except.ok.injEq] at hok
    subst hok
    rw [List.map_map]
    rw [show (Prod.fst ∘ fun p : Nat × Nat × Int => (p.1, p.2.1, p.2.2 % 10)) =
      (Prod.fst : Nat × (Nat × Int) → Nat) from rfl]
    rw [List.enum_map_fst]
    exact List.nodup_range _
  · exact (Qa4mre.allKeys_nodup hwf).sublist (Qa4mre.generateExamples_keys_sublist root)

/-- Witness for C5 (amended) at a concrete SVHN source and a concrete
well-formed QA4MRE document. -/
theorem example_keys_unique_witness :
    Qa4mre.WellFormedIds [Qa4mre.topicSample] ∧
    (([(0, 7, (5 : Int))] : List (Nat × Nat × Int)).map Prod.fst).Nodup ∧
    ((Qa4mre.generateExamples [Qa4mre.topicSample]).1.map Prod.fst).Nodup := by
  have hwf : Qa4mre.WellFormedIds [Qa4mre.topicSample] := by
    unfold Qa4mre.WellFormedIds
    decide
  have h := example_keys_unique ⟨[7], [5]⟩ [(0, 7, (5 : Int))] [Qa4mre.topicSample]
    rfl hwf
  exact ⟨hwf, h.1, h.2⟩
